import Mathlib

/-!
# Verification of the xbow client library core

Shallow embedding of the three core components of the `xbow` Go client
library — the cursor-pagination iterator, the retry-with-backoff HTTP
transport, and the webhook signature verifier — together with theorems
settling the specification claims about them.

Conventions of the embedding:
* Go slices become `List`, Go pointers to values become `Option`.
* Go `int`/`int64` become `Int`; where 64-bit overflow matters
  (the verifier's timestamp-difference computation) the wraparound is
  modelled explicitly via `% 2^64`.
* The underlying HTTP transport (`base.RoundTrip`) and the page-fetch
  function are modelled as oracles: a function (for the transport) or a
  list (for pagination) giving the outcome of each successive call.
* `crypto/ed25519.Verify` is an external primitive and is passed in as
  an abstract boolean function.
-/

namespace Xbow

/-! ## Pagination: data model (from the Go source)

```go
type ListOptions struct { Limit int; After string }
type PageInfo struct { NextCursor *string; HasMore bool }
type Page[T any] struct { Items []T; PageInfo PageInfo }
```
-/

structure ListOptions where
  limit : Int
  after : String
deriving Repr, DecidableEq

structure PageInfo where
  nextCursor : Option String
  hasMore : Bool
deriving Repr, DecidableEq

structure Page (T : Type) where
  items : List T
  pageInfo : PageInfo
deriving Repr, DecidableEq

/-- The two protocol errors `paginate` can create, plus a fetch error
surfaced as-is (`yield(zero, err)` after a failing fetch). -/
inductive PaginateError (E : Type) where
  | fetchFailed (e : E)
  | noCursor
  | sameCursor
deriving Repr, DecidableEq

/-- One yielded pair of the Go iterator `iter.Seq2[T, error]`: either an
item with nil error, or a zero value with a non-nil error. -/
inductive PEvent (T E : Type) where
  | item (x : T)
  | err (e : PaginateError E)
deriving Repr, DecidableEq

/-- The body of the `for` loop in `paginate`, run against an oracle list
describing the result of each successive `fetch` call.  Returns the
sequence of yielded events together with the `ListOptions` value passed
to each fetch call (one entry per call, in order).  `cursor` is the loop
variable; `limit` was read once from the caller's options.  An exhausted
oracle means no further fetch outcome is specified and the run stops. -/
def paginateLoop (limit : Int) :
    String → List (Except E (Page T)) → List (PEvent T E) × List ListOptions
  | _, [] => ([], [])
  | cursor, res :: rest =>
    let pageOpts : ListOptions := ⟨limit, cursor⟩
    match res with
    | .error e => ([.err (.fetchFailed e)], [pageOpts])
    | .ok page =>
      let itemEvents : List (PEvent T E) := page.items.map .item
      if page.pageInfo.hasMore = false then
        (itemEvents, [pageOpts])
      else
        match page.pageInfo.nextCursor with
        | none => (itemEvents ++ [.err .noCursor], [pageOpts])
        | some nc =>
          if nc = "" then (itemEvents ++ [.err .noCursor], [pageOpts])
          else if nc = cursor then (itemEvents ++ [.err .sameCursor], [pageOpts])
          else
            let r := paginateLoop limit nc rest
            (itemEvents ++ r.1, pageOpts :: r.2)

/-- The initial cursor of `paginate`: `opts.After`, or `""` when
`opts == nil`. -/
def initialCursor (opts : Option ListOptions) : String :=
  match opts with | none => "" | some o => o.after

/-- The limit `paginate` reads once from the caller's options
(`0`, the Go zero value, when `opts == nil`). -/
def initialLimit (opts : Option ListOptions) : Int :=
  match opts with | none => 0 | some o => o.limit

/-- `paginate(ctx, opts, fetch)`: initial cursor and limit are read from
the caller's options, defaulting to `""` and `0` when `opts == nil`. -/
def paginate (opts : Option ListOptions) (oracle : List (Except E (Page T))) :
    List (PEvent T E) × List ListOptions :=
  paginateLoop (initialLimit opts) (initialCursor opts) oracle

/-- The page sequence a well-behaved server produces, starting from
`cursor`: every page but the last has `HasMore` set and carries a fresh
(non-empty, different from the cursor just used) next cursor; the last
page has `HasMore` unset. -/
def happyFrom (cursor : String) : List (Page T) → Prop
  | [] => True
  | [p] => p.pageInfo.hasMore = false
  | p :: q :: rest =>
    p.pageInfo.hasMore = true ∧
    ∃ c, p.pageInfo.nextCursor = some c ∧ c ≠ "" ∧ c ≠ cursor ∧
      happyFrom c (q :: rest)

/-- The `ListOptions` values the iterator is expected to pass to the
successive fetch calls: the caller's limit every time, and as cursor
first the initial cursor, then each page's next cursor. -/
def expectedCalls (limit : Int) (cursor : String) : List (Page T) → List ListOptions
  | [] => []
  | p :: rest => ⟨limit, cursor⟩ :: expectedCalls limit (p.pageInfo.nextCursor.getD "") rest

/-! ## Retry transport (from the Go source)

```go
type RetryPolicy struct {
  MaxAttempts int; InitialBackoff, MaxBackoff time.Duration
  Jitter bool; RetryableStatusCodes []int; RetryPOST bool
}
type retryTransport struct { base http.RoundTripper; policy RetryPolicy }
```
Durations are in nanoseconds.  `retryableStatusCodes = none` models a
nil Go slice (the case `defaults()` fills in). -/

structure RetryPolicy where
  maxAttempts : Int
  initialBackoff : Int
  maxBackoff : Int
  jitter : Bool
  retryableStatusCodes : Option (List Int)
  retryPOST : Bool
deriving Repr, DecidableEq

/-- `RetryPolicy.defaults`: fill in zero-value fields. -/
def RetryPolicy.defaults (p : RetryPolicy) : RetryPolicy :=
  let p := if p.maxAttempts ≤ 0 then { p with maxAttempts := 3 } else p
  let p := if p.initialBackoff ≤ 0 then { p with initialBackoff := 500 * 1000000 } else p
  let p := if p.maxBackoff ≤ 0 then { p with maxBackoff := 30 * 1000000000 } else p
  let p := if p.retryableStatusCodes = none then
    { p with retryableStatusCodes := some [429, 500, 502, 503, 504] } else p
  p

/-- An HTTP response, reduced to the fields the transport inspects plus
an abstract payload so that "returns the response unchanged" is a
non-trivial statement. -/
structure HttpResponse (B : Type) where
  statusCode : Int
  body : B
deriving Repr, DecidableEq

/-- Outcome of a `RoundTrip` call in Go: a `(*http.Response, error)`
pair, either of which may be nil. -/
inductive RTError (E : Type) where
  | transport (e : E)
  | ctxCanceled
deriving Repr, DecidableEq

/-- `isRetryableMethod`: GET/HEAD/PUT/DELETE always, POST iff
`RetryPOST`, everything else never. -/
def isRetryableMethod (p : RetryPolicy) (method : String) : Bool :=
  if method = "GET" ∨ method = "HEAD" ∨ method = "PUT" ∨ method = "DELETE" then true
  else if method = "POST" then p.retryPOST
  else false

/-- `isRetryableStatus`: linear scan of `RetryableStatusCodes`
(a nil slice scans zero elements). -/
def isRetryableStatus (p : RetryPolicy) (status : Int) : Bool :=
  (p.retryableStatusCodes.getD []).any (· == status)

/-- The `for attempt := range t.policy.MaxAttempts` loop of
`retryTransport.RoundTrip`.  `base n` is the outcome of the (n+1)-st
call to the underlying transport; `canceled n` tells whether the
request's context fires during the backoff wait that follows attempt
`n`.  `fuel` is the number of loop iterations still allowed (initially
`MaxAttempts`, clamped at zero as Go's `range` over a non-positive int
runs no iterations); `acc` carries the `resp, err` variables that the
trailing `return resp, err` would return if the loop body never runs.
Besides the Go result pair, the model returns the number of calls made
to the underlying transport. -/
def roundTripLoop (p : RetryPolicy) (base : Nat → Except E (HttpResponse B))
    (canceled : Nat → Bool) :
    Nat → Nat → Option (HttpResponse B) × Option (RTError E) →
    (Option (HttpResponse B) × Option (RTError E)) × Nat
  | _, 0, acc => (acc, 0)
  | attempt, fuel + 1, _ =>
    match base attempt with
    | .error e => ((none, some (.transport e)), 1)
    | .ok resp =>
      if isRetryableStatus p resp.statusCode = false then ((some resp, none), 1)
      else if fuel = 0 then ((some resp, none), 1)
      else if canceled attempt then ((none, some .ctxCanceled), 1)
      else
        let r := roundTripLoop p base canceled (attempt + 1) fuel (some resp, none)
        (r.1, r.2 + 1)

/-- `retryTransport.RoundTrip`: non-retryable methods bypass the loop
with a single call to the underlying transport. -/
def RoundTrip (p : RetryPolicy) (method : String)
    (base : Nat → Except E (HttpResponse B)) (canceled : Nat → Bool) :
    (Option (HttpResponse B) × Option (RTError E)) × Nat :=
  if isRetryableMethod p method = false then
    match base 0 with
    | .error e => ((none, some (.transport e)), 1)
    | .ok resp => ((some resp, none), 1)
  else
    roundTripLoop p base canceled 0 p.maxAttempts.toNat (none, none)

/-! ### Backoff computation

```go
func (t *retryTransport) backoff(attempt int) time.Duration {
  backoff := float64(t.policy.InitialBackoff) * math.Pow(2, float64(attempt))
  if backoff > float64(t.policy.MaxBackoff) { backoff = float64(t.policy.MaxBackoff) }
  if t.policy.Jitter {
    n, _ := rand.Int(rand.Reader, big.NewInt(int64(backoff)))
    backoff = float64(n.Int64())
  }
  return time.Duration(backoff)
}
```
The float64 arithmetic is exact for durations below 2^53 ns (≈ 104
days): conversion of such an int64 to float64 is exact, multiplication
by a power of two is exact (or overflows past any representable
duration, in which case the clamp takes over), so the computation is
modelled over `Int`. -/

/-- The deterministic backoff ceiling: initial backoff doubled per
attempt, clamped to `MaxBackoff`. -/
def backoffCeil (p : RetryPolicy) (attempt : Nat) : Int :=
  let b := p.initialBackoff * 2 ^ attempt
  if b > p.maxBackoff then p.maxBackoff else b

/-- Contract of `crypto/rand.Int(reader, max)` for `max > 0`: the draw
is a uniform random integer in `[0, max)`.  `randIntPossible max n`
says `n` is a possible draw. -/
def randIntPossible (max n : Int) : Prop := 0 ≤ n ∧ n < max

instance (max n : Int) : Decidable (randIntPossible max n) := by
  unfold randIntPossible; infer_instance

/-- The value `backoff` returns, given the jitter draw `n` (ignored
when jitter is disabled). -/
def backoffValue (p : RetryPolicy) (attempt : Nat) (n : Int) : Int :=
  if p.jitter then n else backoffCeil p attempt

/-! ## Webhook verifier (from the Go source)

The request body is modelled as the pure byte stream still readable from
`r.Body` (a list of byte values); reading via
`io.ReadAll(io.LimitReader(r.Body, max+1))` takes the first `max+1`
bytes and leaves the rest on the stream.  Read errors (`ERR_READ_BODY`)
have no counterpart on a pure byte list and are not modelled.
`ed25519.Verify` is the abstract parameter `edVerify`; the key type `K`
stands for `ed25519.PublicKey`. -/

/-- `xbow.Error`: a typed error with a stable code and a message. -/
structure XError where
  code : String
  message : String
deriving Repr, DecidableEq

def errMissingTimestamp : XError :=
  ⟨"ERR_MISSING_TIMESTAMP", "missing X-Signature-Timestamp header"⟩
def errMissingSignature : XError :=
  ⟨"ERR_MISSING_SIGNATURE", "missing X-Signature-Ed25519 header"⟩
def errInvalidTimestamp : XError :=
  ⟨"ERR_INVALID_TIMESTAMP", "invalid timestamp format"⟩
def errTimestampExpired : XError :=
  ⟨"ERR_TIMESTAMP_EXPIRED", "timestamp outside valid range"⟩
def errInvalidSigHex : XError :=
  ⟨"ERR_INVALID_SIGNATURE", "invalid signature hex encoding"⟩
def errInvalidSigLen : XError :=
  ⟨"ERR_INVALID_SIGNATURE", "invalid signature length"⟩
def errBodyTooLarge : XError :=
  ⟨"ERR_BODY_TOO_LARGE", "request body exceeds maximum allowed size"⟩
def errSignatureInvalid : XError :=
  ⟨"ERR_SIGNATURE_INVALID", "signature verification failed"⟩

/-- UTF-8 encoding of one character (Go `[]byte(string)` is UTF-8). -/
def charUtf8 (c : Char) : List Nat :=
  let n := c.toNat
  if n < 0x80 then [n]
  else if n < 0x800 then
    [0xC0 ||| (n >>> 6), 0x80 ||| (n &&& 0x3F)]
  else if n < 0x10000 then
    [0xE0 ||| (n >>> 12), 0x80 ||| ((n >>> 6) &&& 0x3F), 0x80 ||| (n &&& 0x3F)]
  else
    [0xF0 ||| (n >>> 18), 0x80 ||| ((n >>> 12) &&& 0x3F),
      0x80 ||| ((n >>> 6) &&& 0x3F), 0x80 ||| (n &&& 0x3F)]

/-- The bytes of a Go string. -/
def utf8Bytes (s : String) : List Nat := s.data.flatMap charUtf8

/-- `strconv.ParseInt(s, 10, 64)`: optional sign, then decimal digits
only; empty digit string, stray characters and int64 overflow are all
errors (Go reports overflow via a non-nil `err`, which `Verify` treats
the same as a syntax error). -/
def parseInt64 (s : String) : Option Int :=
  match s.data with
  | [] => none
  | c :: rest =>
    let signDigits : Bool × List Char :=
      if c = '-' then (true, rest)
      else if c = '+' then (false, rest)
      else (false, c :: rest)
    let ds := signDigits.2
    if ds.isEmpty then none
    else if ds.all (fun d => 48 ≤ d.toNat ∧ d.toNat ≤ 57) then
      let n : Nat := ds.foldl (fun acc d => acc * 10 + (d.toNat - 48)) 0
      let v : Int := if signDigits.1 then -(n : Int) else (n : Int)
      if -(2 ^ 63) ≤ v ∧ v ≤ 2 ^ 63 - 1 then some v else none
    else none

/-- Value of a hex digit, as accepted by `encoding/hex`. -/
def hexDigitVal (c : Char) : Option Nat :=
  if 48 ≤ c.toNat ∧ c.toNat ≤ 57 then some (c.toNat - 48)
  else if 97 ≤ c.toNat ∧ c.toNat ≤ 102 then some (c.toNat - 87)
  else if 65 ≤ c.toNat ∧ c.toNat ≤ 70 then some (c.toNat - 55)
  else none

/-- `hex.DecodeString` on a character list: two digits per byte; an odd
length or a non-hex character is an error. -/
def hexDecodeList : List Char → Option (List Nat)
  | [] => some []
  | [_] => none
  | a :: b :: rest =>
    match hexDigitVal a, hexDigitVal b, hexDecodeList rest with
    | some hi, some lo, some bs => some ((hi * 16 + lo) :: bs)
    | _, _, _ => none

/-- `hex.DecodeString`. -/
def hexDecode (s : String) : Option (List Nat) := hexDecodeList s.data

/-- `ed25519.SignatureSize`. -/
def signatureSize : Nat := 64

/-- Two's-complement wraparound of Go `int64` arithmetic: normalize to
`[-2^63, 2^63)`. -/
def int64wrap (x : Int) : Int := (x + 2 ^ 63) % 2 ^ 64 - 2 ^ 63

/-- The timestamp distance `Verify` computes, exactly as the Go int64
arithmetic does:
```go
diff := now - ts
if diff < 0 { diff = -diff }
```
Both the subtraction and the negation wrap (in particular
`-math.MinInt64 == math.MinInt64`). -/
def goAbsDiff (now t : Int) : Int :=
  let d := int64wrap (now - t)
  if d < 0 then int64wrap (-d) else d

/-- `WebhookVerifier`.  `maxClockSkewSec` models
`int64(v.maxClockSkew.Seconds())` (300 for the 5-minute default);
`maxBodyBytes` is in bytes (default 5 MiB). -/
structure WebhookVerifier (K : Type) where
  publicKeys : List K
  maxClockSkewSec : Int
  maxBodyBytes : Int

/-- The parts of an inbound `*http.Request` that `Verify` looks at.
A header's value is `""` when the header is absent (`Header.Get`). -/
structure WebhookRequest where
  timestampHeader : String
  signatureHeader : String
  body : List Nat
deriving Repr, DecidableEq

/-- `WebhookVerifier.Verify`, returning the Go error (`none` = nil) and
the byte stream a downstream reader of `r.Body` observes afterwards. -/
def Verify (edVerify : K → List Nat → List Nat → Bool)
    (v : WebhookVerifier K) (now : Int) (r : WebhookRequest) :
    Option XError × List Nat :=
  let timestamp := r.timestampHeader
  if timestamp = "" then (some errMissingTimestamp, r.body)
  else if r.signatureHeader = "" then (some errMissingSignature, r.body)
  else
    match parseInt64 timestamp with
    | none => (some errInvalidTimestamp, r.body)
    | some ts =>
      if goAbsDiff now ts > v.maxClockSkewSec then (some errTimestampExpired, r.body)
      else
        match hexDecode r.signatureHeader with
        | none => (some errInvalidSigHex, r.body)
        | some sig =>
          if sig.length ≠ signatureSize then (some errInvalidSigLen, r.body)
          else
            let lim := (v.maxBodyBytes + 1).toNat
            let body := r.body.take lim
            let remaining := r.body.drop lim
            if (body.length : Int) > v.maxBodyBytes then (some errBodyTooLarge, remaining)
            else
              let message := utf8Bytes timestamp ++ body
              if v.publicKeys.any (fun pub => edVerify pub message sig) then
                (none, body)
              else (some errSignatureInvalid, body)

/-! ## Page converters (from `webhooks.go`)

`webhooksPageFromResponse` and `deliveriesPageFromResponse` build a
`Page` from a generated API response; both set
`HasMore: r.NextCursor != nil && *r.NextCursor != ""`. -/

/-- An item of the generated webhooks list response. -/
structure ApiWebhookListItem where
  id : String
  apiVersion : String
  targetURL : String
  events : List String
  createdAt : String
  updatedAt : String
deriving Repr, DecidableEq

/-- `api.GetAPIV1OrganizationsOrganizationIDWebhooksResponse`. -/
structure ApiWebhooksListResponse where
  items : List ApiWebhookListItem
  nextCursor : Option String
deriving Repr, DecidableEq

/-- `xbow.WebhookListItem`. -/
structure WebhookListItem where
  id : String
  apiVersion : String
  targetURL : String
  events : List String
  createdAt : String
  updatedAt : String
deriving Repr, DecidableEq

/-- `webhooksPageFromResponse`. -/
def webhooksPageFromResponse (r : ApiWebhooksListResponse) : Page WebhookListItem :=
  { items := r.items.map (fun item =>
      { id := item.id
        apiVersion := item.apiVersion
        targetURL := item.targetURL
        events := item.events
        createdAt := item.createdAt
        updatedAt := item.updatedAt })
    pageInfo :=
    { nextCursor := r.nextCursor
      hasMore := match r.nextCursor with | none => false | some s => s != "" } }

/-- `xbow.WebhookDeliveryRequest`. -/
structure WebhookDeliveryRequest where
  body : String
  headers : List (String × String)
deriving Repr, DecidableEq

/-- `xbow.WebhookDeliveryResponse`. -/
structure WebhookDeliveryResponse where
  body : String
  headers : List (String × String)
  status : Int
deriving Repr, DecidableEq

/-- `xbow.WebhookDelivery`. -/
structure WebhookDelivery where
  payload : String
  request : WebhookDeliveryRequest
  response : WebhookDeliveryResponse
  sentAt : String
  success : Bool
deriving Repr, DecidableEq

/-- An item of the generated deliveries list response (same field
layout as `WebhookDelivery`, distinct generated type in Go). -/
structure ApiDeliveryItem where
  payload : String
  requestBody : String
  requestHeaders : List (String × String)
  responseBody : String
  responseHeaders : List (String × String)
  responseStatus : Int
  sentAt : String
  success : Bool
deriving Repr, DecidableEq

/-- `api.GetAPIV1WebhooksWebhookIDDeliveriesResponse`. -/
structure ApiDeliveriesListResponse where
  items : List ApiDeliveryItem
  nextCursor : Option String
deriving Repr, DecidableEq

/-- `deliveriesPageFromResponse`. -/
def deliveriesPageFromResponse (r : ApiDeliveriesListResponse) : Page WebhookDelivery :=
  { items := r.items.map (fun item =>
      { payload := item.payload
        request := { body := item.requestBody, headers := item.requestHeaders }
        response :=
        { body := item.responseBody
          headers := item.responseHeaders
          status := item.responseStatus }
        sentAt := item.sentAt
        success := item.success })
    pageInfo :=
    { nextCursor := r.nextCursor
      hasMore := match r.nextCursor with | none => false | some s => s != "" } }

/-! ## Concrete values used by counterexamples and witnesses -/

/-- 128 hex zeros: decodes to a 64-byte (all-zero) signature. -/
def zeroSigHex : String := String.mk (List.replicate 128 '0')

/-- The P7 policy with jitter disabled: initial backoff 100 ms,
max backoff 1 s. -/
def polNoJitter : RetryPolicy :=
  ⟨3, 100000000, 1000000000, false, some [429, 500, 502, 503, 504], false⟩

/-- The same policy with jitter enabled. -/
def polJitter : RetryPolicy :=
  ⟨3, 100000000, 1000000000, true, some [429, 500, 502, 503, 504], false⟩

/-! ## Theorems: retry transport -/

/-- If every attempt yields a response with a retryable status and the
context never fires, the retry loop runs its full fuel and returns the
last response with a nil error. -/
theorem roundTripLoop_all_retryable {E B : Type} (p : RetryPolicy)
    (base : Nat → Except E (HttpResponse B)) (canceled : Nat → Bool)
    (hbase : ∀ n, ∃ r, base n = .ok r ∧ isRetryableStatus p r.statusCode = true)
    (hc : ∀ n, canceled n = false) :
    ∀ fuel attempt acc, 1 ≤ fuel →
      ∃ r, base (attempt + fuel - 1) = .ok r ∧
        roundTripLoop p base canceled attempt fuel acc = ((some r, none), fuel)
  | 1, attempt, acc, _ => by
    obtain ⟨r, hr, hs⟩ := hbase attempt
    refine ⟨r, by simpa using hr, ?_⟩
    simp [roundTripLoop, hr, hs]
  | fuel + 2, attempt, acc, _ => by
    obtain ⟨r, hr, hs⟩ := hbase attempt
    obtain ⟨r', hr', hloop⟩ :=
      roundTripLoop_all_retryable p base canceled hbase hc (fuel + 1) (attempt + 1)
        (some r, none) (by omega)
    refine ⟨r', by simpa [show attempt + 1 + (fuel + 1) - 1 = attempt + (fuel + 2) - 1 by omega]
      using hr', ?_⟩
    have h1 : roundTripLoop p base canceled attempt (fuel + 2) acc =
        ((roundTripLoop p base canceled (attempt + 1) (fuel + 1) (some r, none)).1,
          (roundTripLoop p base canceled (attempt + 1) (fuel + 1) (some r, none)).2 + 1) := by
      simp [roundTripLoop, hr, hs, hc]
    rw [h1, hloop]

/-- C4: for every fetch that always returns a response with a status in
`retryable_status_codes`, on a retryable method the retry transport
performs exactly `max_attempts` attempts and returns the last attempt's
response unchanged with a nil error — exhaustion is not an error. -/
theorem retry_exhaustion_returns_last_response {E B : Type} (p : RetryPolicy)
    (method : String) (base : Nat → Except E (HttpResponse B)) (canceled : Nat → Bool)
    (hm : isRetryableMethod p method = true) (hmax : 1 ≤ p.maxAttempts)
    (hbase : ∀ n, ∃ r, base n = .ok r ∧ isRetryableStatus p r.statusCode = true)
    (hc : ∀ n, canceled n = false) :
    ∃ r, base (p.maxAttempts.toNat - 1) = .ok r ∧
      RoundTrip p method base canceled = ((some r, none), p.maxAttempts.toNat) := by
  obtain ⟨r, hr, hloop⟩ :=
    roundTripLoop_all_retryable p base canceled hbase hc p.maxAttempts.toNat 0
      (none, none) (by omega)
  exact ⟨r, by simpa using hr, by simp [RoundTrip, hm, hloop]⟩

/-- Witness for the previous theorem: a GET against a server that
always answers 503, with `MaxAttempts = 3`, makes exactly 3 calls and
hands back the third 503 response. -/
theorem retry_exhaustion_witness :
    RoundTrip polNoJitter "GET" (fun n => Except.ok (⟨503, n⟩ : HttpResponse Nat))
      (fun _ => false) = ((some ⟨503, 2⟩, (none : Option (RTError Unit))), 3) := by
  have hstat : isRetryableStatus polNoJitter 503 = true := by decide
  obtain ⟨r, hr, heq⟩ := retry_exhaustion_returns_last_response polNoJitter "GET"
    (fun n => Except.ok (⟨503, n⟩ : HttpResponse Nat)) (fun _ => false)
    (by decide) (by decide)
    (fun n => ⟨⟨503, n⟩, rfl, hstat⟩) (fun _ => rfl)
  have hr' : r = ⟨503, 2⟩ := by simpa [polNoJitter] using hr.symm
  simpa [hr', polNoJitter] using heq

/-- C7: the transport performs a single attempt when (a) the underlying
transport returns an error — returned immediately — or (b) the method
is POST with `RetryPOST` disabled, or any method outside
GET/HEAD/PUT/DELETE/POST, even when the status is retryable. -/
theorem retry_exclusions {E B : Type} (p : RetryPolicy)
    (base : Nat → Except E (HttpResponse B)) (canceled : Nat → Bool) :
    (∀ method e, 1 ≤ p.maxAttempts → base 0 = .error e →
       RoundTrip p method base canceled = ((none, some (.transport e)), 1)) ∧
    (∀ r, p.retryPOST = false → base 0 = .ok r →
       RoundTrip p "POST" base canceled = ((some r, none), 1)) ∧
    (∀ e, p.retryPOST = false → base 0 = .error e →
       RoundTrip p "POST" base canceled = ((none, some (.transport e)), 1)) ∧
    (∀ method r, isRetryableMethod p method = false → base 0 = .ok r →
       RoundTrip p method base canceled = ((some r, none), 1)) ∧
    (∀ method, method ≠ "GET" → method ≠ "HEAD" → method ≠ "PUT" → method ≠ "DELETE" →
       method ≠ "POST" → isRetryableMethod p method = false) := by
  have hpost : p.retryPOST = false → isRetryableMethod p "POST" = false := by
    intro h; simp [isRetryableMethod, h]
  refine ⟨?_, ?_, ?_, ?_, ?_⟩
  · intro method e hmax hb
    by_cases hm : isRetryableMethod p method = true
    · obtain ⟨k, hk⟩ : ∃ k, p.maxAttempts.toNat = k + 1 :=
        ⟨p.maxAttempts.toNat - 1, by omega⟩
      simp [RoundTrip, hm, hk, roundTripLoop, hb]
    · simp only [Bool.not_eq_true] at hm
      simp [RoundTrip, hm, hb]
  · intro r hp hb
    simp [RoundTrip, hpost hp, hb]
  · intro e hp hb
    simp [RoundTrip, hpost hp, hb]
  · intro method r hm hb
    simp [RoundTrip, hm, hb]
  · intro method h1 h2 h3 h4 h5
    simp [isRetryableMethod, h1, h2, h3, h4, h5]

/-- Witness for the exclusions: one transport error on a GET is
returned at once despite `MaxAttempts = 3`, and a POST receiving 503
with `RetryPOST` off is not retried. -/
theorem retry_exclusions_witness :
    RoundTrip polNoJitter "GET" (fun _ => (Except.error 7 : Except Nat (HttpResponse Nat)))
      (fun _ => false) = ((none, some (.transport 7)), 1) ∧
    RoundTrip polNoJitter "POST" (fun _ => (Except.ok ⟨503, 0⟩ : Except Nat (HttpResponse Nat)))
      (fun _ => false) = ((some ⟨503, 0⟩, none), 1) :=
  ⟨(retry_exclusions polNoJitter _ _).1 "GET" 7 (by decide) rfl,
   (retry_exclusions polNoJitter _ _).2.1 ⟨503, 0⟩ rfl rfl⟩

/-- C8: a `retryTransport` whose policy has `MaxAttempts ≤ 0` (i.e.
`defaults()` was never applied) performs zero attempts on a retryable
method and returns a nil response together with a nil error — Go's
`range` over a non-positive int runs no iterations and the trailing
`return resp, err` returns the never-assigned variables. -/
theorem retry_zero_attempts_nil_nil {E B : Type} (p : RetryPolicy) (method : String)
    (base : Nat → Except E (HttpResponse B)) (canceled : Nat → Bool)
    (hm : isRetryableMethod p method = true) (hmax : p.maxAttempts ≤ 0) :
    RoundTrip p method base canceled = ((none, none), 0) := by
  simp [RoundTrip, hm, Int.toNat_eq_zero.mpr hmax, roundTripLoop]

/-- Witness: `MaxAttempts = 0`, a GET whose server would answer 503,
zero calls, nil response, nil error. -/
theorem retry_zero_attempts_witness :
    RoundTrip ⟨0, 100, 1000, false, none, false⟩ "GET"
      (fun _ => (Except.ok ⟨503, 0⟩ : Except Nat (HttpResponse Nat))) (fun _ => false) =
      ((none, none), 0) :=
  retry_zero_attempts_nil_nil _ _ _ _ (by decide) (by decide)

/-! ## Theorems: backoff -/

/-- C5 (amended): the deterministic backoff is exactly
`min(initial * 2^attempt, max)`; for `initial = 100 ms`, `max = 1 s`
attempts 0..5 give 100, 200, 400, 800, 1000, 1000 ms; with jitter
disabled that value is used as-is; with jitter enabled the delay used
is a draw from `[0, delay)` — the computed ceiling itself excluded. -/
theorem backoff_formula_and_jitter_range :
    (∀ (p : RetryPolicy) (attempt : Nat),
       backoffCeil p attempt = min (p.initialBackoff * 2 ^ attempt) p.maxBackoff) ∧
    ((List.range 6).map (backoffCeil polNoJitter) =
       [100000000, 200000000, 400000000, 800000000, 1000000000, 1000000000]) ∧
    (∀ (p : RetryPolicy) (attempt : Nat) (n : Int), p.jitter = false →
       backoffValue p attempt n = backoffCeil p attempt) ∧
    (∀ (p : RetryPolicy) (attempt : Nat) (n : Int), p.jitter = true →
       randIntPossible (backoffCeil p attempt) n →
       0 ≤ backoffValue p attempt n ∧ backoffValue p attempt n < backoffCeil p attempt) := by
  refine ⟨?_, by decide, ?_, ?_⟩
  · intro p attempt
    show (if p.initialBackoff * 2 ^ attempt > p.maxBackoff then p.maxBackoff
      else p.initialBackoff * 2 ^ attempt) = _
    rw [min_def]
    split <;> split <;> omega
  · intro p attempt n h
    simp [backoffValue, h]
  · intro p attempt n h hn
    obtain ⟨h0, hlt⟩ := hn
    simp only [backoffValue, h, if_true]
    exact ⟨h0, hlt⟩

/-- Counterexample to C5 as stated: with jitter enabled and a computed
ceiling of 100 ms, the ceiling itself is not a possible outcome of
`rand.Int(reader, backoff)` — the jitter range is `[0, delay)`, not
the claimed `[0, delay]` inclusive. -/
theorem jitter_ceiling_not_attainable :
    polJitter.jitter = true ∧ backoffCeil polJitter 0 = 100000000 ∧
    randIntPossible (backoffCeil polJitter 0) 99999999 ∧
    ¬ randIntPossible (backoffCeil polJitter 0) (backoffCeil polJitter 0) := by
  decide

/-- Witness for the amended backoff claim at a concrete draw. -/
theorem backoff_witness :
    0 ≤ backoffValue polJitter 0 50000000 ∧
      backoffValue polJitter 0 50000000 < backoffCeil polJitter 0 :=
  backoff_formula_and_jitter_range.2.2.2 polJitter 0 50000000 rfl (by decide)

/-! ## Theorems: pagination -/

theorem expectedCalls_length {T : Type} (limit : Int) :
    ∀ (pages : List (Page T)) (cursor : String),
      (expectedCalls limit cursor pages).length = pages.length
  | [], _ => rfl
  | p :: rest, cursor => by
    simp [expectedCalls, expectedCalls_length limit rest]

/-- One advancing step of the loop: a page announcing more data with a
fresh non-empty cursor contributes its items and one fetch call, then
the loop continues at the new cursor. -/
theorem paginateLoop_cons_ok {T E : Type} (limit : Int) (cursor : String) (p : Page T)
    (os : List (Except E (Page T))) (hm : p.pageInfo.hasMore = true) (c : String)
    (hc : p.pageInfo.nextCursor = some c) (hne : c ≠ "") (hfresh : c ≠ cursor) :
    paginateLoop limit cursor (.ok p :: os) =
      (p.items.map PEvent.item ++ (paginateLoop limit c os).1,
        ⟨limit, cursor⟩ :: (paginateLoop limit c os).2) := by
  simp [paginateLoop, hm, hc, hne, hfresh]

/-- Core of the happy path: a well-behaved page sequence is walked to
completion, yielding exactly the items in order, with one fetch per
page and the threaded cursors. -/
theorem paginateLoop_happy {T E : Type} (limit : Int) :
    ∀ (pages : List (Page T)) (cursor : String), pages ≠ [] → happyFrom cursor pages →
      paginateLoop (E := E) limit cursor (pages.map Except.ok) =
        ((pages.flatMap Page.items).map PEvent.item, expectedCalls limit cursor pages)
  | [], _, hne, _ => absurd rfl hne
  | [p], cursor, _, h => by
    have hm : p.pageInfo.hasMore = false := h
    simp [paginateLoop, hm, expectedCalls]
  | p :: q :: rest, cursor, _, h => by
    obtain ⟨hm, c, hc, hne', hfresh, hrest⟩ := h
    have ih := paginateLoop_happy (E := E) limit (q :: rest) c (by simp) hrest
    rw [List.map_cons, paginateLoop_cons_ok limit cursor p _ hm c hc hne' hfresh, ih]
    simp [expectedCalls, hc]

/-- C3: iterating a finite sequence of pages in which every page but
the last has `has_more` with a fresh non-empty `next_cursor` yields
exactly the concatenation of the pages' items in order, with the fetch
called exactly once per page; call N+1 carries page N's `next_cursor`
and the first call carries the caller's `After` (or `""`). -/
theorem paginate_happy_path {T E : Type} (opts : Option ListOptions)
    (pages : List (Page T)) (hne : pages ≠ [])
    (h : happyFrom (initialCursor opts) pages) :
    paginate (E := E) opts (pages.map Except.ok) =
      ((pages.flatMap Page.items).map PEvent.item,
        expectedCalls (initialLimit opts) (initialCursor opts) pages) ∧
    (paginate (E := E) opts (pages.map Except.ok)).2.length = pages.length := by
  have h1 := paginateLoop_happy (E := E) (initialLimit opts) pages (initialCursor opts) hne h
  refine ⟨h1, ?_⟩
  show (paginateLoop _ _ _).2.length = _
  rw [h1]
  exact expectedCalls_length _ _ _

/-- Witness: the spec's end-to-end example — pages `[a,b | c1]`,
`[c,d | c2]`, `[e | done]` yield `a,b,c,d,e` with three fetches at
cursors `""`, `"c1"`, `"c2"`. -/
theorem paginate_happy_path_witness :
    paginate (E := Unit) none
        ([⟨["a", "b"], ⟨some "c1", true⟩⟩, ⟨["c", "d"], ⟨some "c2", true⟩⟩,
          (⟨["e"], ⟨none, false⟩⟩ : Page String)].map Except.ok) =
      ([.item "a", .item "b", .item "c", .item "d", .item "e"],
        [⟨0, ""⟩, ⟨0, "c1"⟩, ⟨0, "c2"⟩]) ∧
    (paginate (E := Unit) none
        ([⟨["a", "b"], ⟨some "c1", true⟩⟩, ⟨["c", "d"], ⟨some "c2", true⟩⟩,
          (⟨["e"], ⟨none, false⟩⟩ : Page String)].map Except.ok)).2.length = 3 := by
  have h := paginate_happy_path (E := Unit) none
    [⟨["a", "b"], ⟨some "c1", true⟩⟩, ⟨["c", "d"], ⟨some "c2", true⟩⟩,
      (⟨["e"], ⟨none, false⟩⟩ : Page String)]
    (by decide)
    ⟨rfl, "c1", rfl, by decide, by decide, rfl, "c2", rfl, by decide, by decide, rfl⟩
  refine ⟨?_, h.2⟩
  rw [h.1]
  decide

/-- C6: `has_more` with an absent or empty `next_cursor` yields the
page's items then the no-cursor protocol error with no further fetch;
`has_more` with a (non-empty) `next_cursor` equal to the cursor just
used yields the items then the distinct same-cursor error after one
fetch. -/
theorem paginate_protocol_guards {T E : Type} (limit : Int) (cursor : String)
    (p : Page T) (rest : List (Except E (Page T))) :
    (p.pageInfo.hasMore = true →
       (p.pageInfo.nextCursor = none ∨ p.pageInfo.nextCursor = some "") →
       paginateLoop limit cursor (.ok p :: rest) =
         (p.items.map PEvent.item ++ [.err .noCursor], [⟨limit, cursor⟩])) ∧
    (p.pageInfo.hasMore = true → p.pageInfo.nextCursor = some cursor → cursor ≠ "" →
       paginateLoop limit cursor (.ok p :: rest) =
         (p.items.map PEvent.item ++ [.err .sameCursor], [⟨limit, cursor⟩])) ∧
    (PaginateError.noCursor (E := E) ≠ PaginateError.sameCursor) := by
  refine ⟨?_, ?_, fun hcontra => PaginateError.noConfusion hcontra⟩
  · intro hm hnc
    rcases hnc with hnc | hnc <;> simp [paginateLoop, hm, hnc]
  · intro hm hnc hne
    simp [paginateLoop, hm, hnc, hne]

/-- Witness for the protocol guards: both scenarios at concrete pages,
with a further oracle entry present that is never fetched. -/
theorem paginate_protocol_guards_witness :
    paginateLoop (E := Unit) 7 "u" (.ok ⟨["a"], ⟨none, true⟩⟩ ::
        [.ok (⟨["z"], ⟨none, false⟩⟩ : Page String)]) =
      ([.item "a", .err .noCursor], [⟨7, "u"⟩]) ∧
    paginateLoop (E := Unit) 7 "u" (.ok ⟨["b"], ⟨some "u", true⟩⟩ ::
        [.ok (⟨["z"], ⟨none, false⟩⟩ : Page String)]) =
      ([.item "b", .err .sameCursor], [⟨7, "u"⟩]) :=
  ⟨(paginate_protocol_guards 7 "u" ⟨["a"], ⟨none, true⟩⟩ _).1 rfl (Or.inl rfl),
   (paginate_protocol_guards 7 "u" ⟨["b"], ⟨some "u", true⟩⟩ _).2.1 rfl rfl (by decide)⟩

theorem paginateLoop_calls_limit {T E : Type} (limit : Int) :
    ∀ (oracle : List (Except E (Page T))) (cursor : String) (c : ListOptions),
      c ∈ (paginateLoop limit cursor oracle).2 → c.limit = limit
  | [], _, c, hc => by simp [paginateLoop] at hc
  | .error e :: rest, cursor, c, hc => by
    simp [paginateLoop] at hc
    simp [hc]
  | .ok page :: rest, cursor, c, hc => by
    by_cases hm : page.pageInfo.hasMore = false
    · simp [paginateLoop, hm] at hc
      simp [hc]
    · rcases hnc : page.pageInfo.nextCursor with _ | nc
      · simp [paginateLoop, hm, hnc] at hc
        simp [hc]
      · by_cases he : nc = ""
        · simp [paginateLoop, hm, hnc, he] at hc
          simp [hc]
        · by_cases hs : nc = cursor
          · subst hs
            simp [paginateLoop, hm, hnc, he] at hc
            simp [hc]
          · simp [paginateLoop, hm, hnc, he, hs] at hc
            rcases hc with hc | hc
            · simp [hc]
            · exact paginateLoop_calls_limit limit rest nc c hc

theorem paginateLoop_first_call {T E : Type} (limit : Int) (cursor : String)
    (res : Except E (Page T)) (rest : List (Except E (Page T))) :
    (paginateLoop limit cursor (res :: rest)).2.head? = some ⟨limit, cursor⟩ := by
  rcases res with e | page
  · simp [paginateLoop]
  · by_cases hm : page.pageInfo.hasMore = false
    · simp [paginateLoop, hm]
    · rcases hnc : page.pageInfo.nextCursor with _ | nc
      · simp [paginateLoop, hm, hnc]
      · by_cases he : nc = ""
        · simp [paginateLoop, hm, hnc, he]
        · by_cases hs : nc = cursor
          · subst hs
            simp [paginateLoop, hm, hnc, he]
          · simp [paginateLoop, hm, hnc, he, hs]

/-- C10: the iterator builds a fresh `ListOptions` for every fetch:
each call's `Limit` is the caller's original limit (only `After`
varies), and the first call's options are exactly the caller's limit
and `After`.  The caller's own `ListOptions` value is never written
(the Go loop only constructs new `pageOpts` structs). -/
theorem paginate_opts_immutable {T E : Type} (opts : ListOptions)
    (oracle : List (Except E (Page T))) :
    (∀ c ∈ (paginate (some opts) oracle).2, c.limit = opts.limit) ∧
    (∀ c, (paginate (some opts) oracle).2.head? = some c →
       c = ⟨opts.limit, opts.after⟩) := by
  constructor
  · intro c hc
    exact paginateLoop_calls_limit opts.limit oracle opts.after c hc
  · intro c hc
    rcases oracle with _ | ⟨res, rest⟩
    · exact Option.noConfusion hc
    · rw [show paginate (some opts) (res :: rest) =
        paginateLoop opts.limit opts.after (res :: rest) from rfl,
        paginateLoop_first_call] at hc
      exact (Option.some_inj.mp hc).symm

/-- Witness: two concrete pagination steps with limit 9 — both calls
carry limit 9, the first carries the caller's cursor. -/
theorem paginate_opts_immutable_witness :
    (∀ c ∈ (paginate (E := Unit) (some ⟨9, "s"⟩)
        ([⟨["a"], ⟨some "t", true⟩⟩, (⟨[], ⟨none, false⟩⟩ : Page String)].map
          Except.ok)).2, c.limit = 9) ∧
    (∀ c, (paginate (E := Unit) (some ⟨9, "s"⟩)
        ([⟨["a"], ⟨some "t", true⟩⟩, (⟨[], ⟨none, false⟩⟩ : Page String)].map
          Except.ok)).2.head? = some c → c = ⟨9, "s"⟩) :=
  paginate_opts_immutable ⟨9, "s"⟩ _

/-! ## Theorems: page converters -/

/-- If every successfully fetched page carries a usable cursor whenever
it announces more pages, the no-cursor protocol error can never be
yielded. -/
theorem noCursor_unreachable_of_good {T E : Type} (limit : Int) :
    ∀ (oracle : List (Except E (Page T))) (cursor : String),
      (∀ p : Page T, Except.ok p ∈ oracle → p.pageInfo.hasMore = true →
         ∃ c, p.pageInfo.nextCursor = some c ∧ c ≠ "") →
      PEvent.err (T := T) (E := E) .noCursor ∉ (paginateLoop limit cursor oracle).1
  | [], _, _ => by simp [paginateLoop]
  | .error e :: rest, cursor, hgood => by
    simp [paginateLoop]
  | .ok page :: rest, cursor, hgood => by
    by_cases hm : page.pageInfo.hasMore = false
    · simp [paginateLoop, hm]
    · have hm' : page.pageInfo.hasMore = true := by
        revert hm; cases page.pageInfo.hasMore <;> simp
      obtain ⟨c, hc, hcne⟩ := hgood page (by simp) hm'
      by_cases hs : c = cursor
      · subst hs
        simp [paginateLoop, hm, hc, hcne]
      · have ih := noCursor_unreachable_of_good limit rest c
          (fun p hp h => hgood p (by simp [hp]) h)
        simp [paginateLoop, hm, hc, hcne, hs, ih]

/-- C9: both response converters set `HasMore` true exactly when
`NextCursor` is non-nil and non-empty, so the iterator's
"more pages but no cursor" protocol error is unreachable for any run
over pages built by them. -/
theorem page_converters_invariant :
    (∀ r : ApiWebhooksListResponse,
       ((webhooksPageFromResponse r).pageInfo.hasMore = true ↔
         ∃ c, r.nextCursor = some c ∧ c ≠ "")) ∧
    (∀ r : ApiDeliveriesListResponse,
       ((deliveriesPageFromResponse r).pageInfo.hasMore = true ↔
         ∃ c, r.nextCursor = some c ∧ c ≠ "")) ∧
    (∀ (E : Type) (limit : Int) (cursor : String)
       (rs : List (Except E ApiWebhooksListResponse)),
       PEvent.err .noCursor ∉
         (paginateLoop limit cursor (rs.map (Except.map webhooksPageFromResponse))).1) ∧
    (∀ (E : Type) (limit : Int) (cursor : String)
       (rs : List (Except E ApiDeliveriesListResponse)),
       PEvent.err .noCursor ∉
         (paginateLoop limit cursor (rs.map (Except.map deliveriesPageFromResponse))).1) := by
  have h1 : ∀ r : ApiWebhooksListResponse,
      ((webhooksPageFromResponse r).pageInfo.hasMore = true ↔
        ∃ c, r.nextCursor = some c ∧ c ≠ "") := by
    intro r
    rcases hr : r.nextCursor with _ | c <;>
      simp [webhooksPageFromResponse, hr]
  have h2 : ∀ r : ApiDeliveriesListResponse,
      ((deliveriesPageFromResponse r).pageInfo.hasMore = true ↔
        ∃ c, r.nextCursor = some c ∧ c ≠ "") := by
    intro r
    rcases hr : r.nextCursor with _ | c <;>
      simp [deliveriesPageFromResponse, hr]
  refine ⟨h1, h2, ?_, ?_⟩
  · intro E limit cursor rs
    refine noCursor_unreachable_of_good limit _ cursor ?_
    intro p hp hm
    simp only [List.mem_map] at hp
    obtain ⟨x, hx, hxp⟩ := hp
    rcases x with e | r
    · simp [Except.map] at hxp
    · simp only [Except.map] at hxp
      obtain rfl : webhooksPageFromResponse r = p := Except.ok.inj hxp
      obtain ⟨c, hc, hcne⟩ := (h1 r).mp hm
      exact ⟨c, by simpa [webhooksPageFromResponse] using hc, hcne⟩
  · intro E limit cursor rs
    refine noCursor_unreachable_of_good limit _ cursor ?_
    intro p hp hm
    simp only [List.mem_map] at hp
    obtain ⟨x, hx, hxp⟩ := hp
    rcases x with e | r
    · simp [Except.map] at hxp
    · simp only [Except.map] at hxp
      obtain rfl : deliveriesPageFromResponse r = p := Except.ok.inj hxp
      obtain ⟨c, hc, hcne⟩ := (h2 r).mp hm
      exact ⟨c, by simpa [deliveriesPageFromResponse] using hc, hcne⟩

/-- Witness: a concrete response with cursor `"c"` converts to a page
with `HasMore`, one with an empty cursor converts to a final page. -/
theorem page_converters_invariant_witness :
    (webhooksPageFromResponse ⟨[], some "c"⟩).pageInfo.hasMore = true ∧
    (deliveriesPageFromResponse ⟨[], some ""⟩).pageInfo.hasMore ≠ true :=
  ⟨(page_converters_invariant.1 ⟨[], some "c"⟩).mpr ⟨"c", rfl, by decide⟩,
   fun h => by
    obtain ⟨c, hc, hcne⟩ := (page_converters_invariant.2.1 ⟨[], some ""⟩).mp h
    exact hcne (Option.some_inj.mp hc.symm)⟩

/-! ## Theorems: webhook verifier -/

/-- When the size check passes, the limited read consumed the whole
body: `io.ReadAll(io.LimitReader(r.Body, max+1))` saw everything. -/
theorem take_eq_self_of_not_over (body : List Nat) (mx : Int)
    (h : ¬ ((body.take (mx + 1).toNat).length : Int) > mx) :
    body.take (mx + 1).toNat = body := by
  rcases le_or_lt body.length (mx + 1).toNat with hle | hlt
  · exact List.take_of_length_le hle
  · exfalso
    apply h
    rw [List.length_take]
    omega

/-- C1 (amended): `Verify` leaves the request body exactly restored —
untouched on rejections that occur before the body read, and re-set to
the exact bytes read (the whole original body) on success and on every
rejection after a successful in-limit read.  The exception the code
forces: on `ERR_BODY_TOO_LARGE` the body is NOT restored — the
`max_body_bytes+1` bytes read are lost and a downstream reader observes
only the remainder of the stream. -/
theorem verify_body_restoration {K : Type} (edVerify : K → List Nat → List Nat → Bool)
    (v : WebhookVerifier K) (now : Int) (r : WebhookRequest) :
    ((Verify edVerify v now r).1 ≠ some errBodyTooLarge →
       (Verify edVerify v now r).2 = r.body) ∧
    ((Verify edVerify v now r).1 = some errBodyTooLarge →
       (Verify edVerify v now r).2 = r.body.drop (v.maxBodyBytes + 1).toNat) := by
  have hMT : errMissingTimestamp ≠ errBodyTooLarge := by decide
  have hMS : errMissingSignature ≠ errBodyTooLarge := by decide
  have hIT : errInvalidTimestamp ≠ errBodyTooLarge := by decide
  have hTE : errTimestampExpired ≠ errBodyTooLarge := by decide
  have hIH : errInvalidSigHex ≠ errBodyTooLarge := by decide
  have hIL : errInvalidSigLen ≠ errBodyTooLarge := by decide
  have hSI : errSignatureInvalid ≠ errBodyTooLarge := by decide
  by_cases ht : r.timestampHeader = ""
  · have heq : Verify edVerify v now r = (some errMissingTimestamp, r.body) := by
      simp [Verify, ht]
    exact ⟨fun _ => by rw [heq],
      fun h => absurd (Option.some_inj.mp (by rw [heq] at h; exact h)) hMT⟩
  by_cases hsg : r.signatureHeader = ""
  · have heq : Verify edVerify v now r = (some errMissingSignature, r.body) := by
      simp [Verify, ht, hsg]
    exact ⟨fun _ => by rw [heq],
      fun h => absurd (Option.some_inj.mp (by rw [heq] at h; exact h)) hMS⟩
  rcases hp : parseInt64 r.timestampHeader with _ | ts
  · have heq : Verify edVerify v now r = (some errInvalidTimestamp, r.body) := by
      simp [Verify, ht, hsg, hp]
    exact ⟨fun _ => by rw [heq],
      fun h => absurd (Option.some_inj.mp (by rw [heq] at h; exact h)) hIT⟩
  by_cases hskew : goAbsDiff now ts > v.maxClockSkewSec
  · have heq : Verify edVerify v now r = (some errTimestampExpired, r.body) := by
      simp [Verify, ht, hsg, hp, hskew]
    exact ⟨fun _ => by rw [heq],
      fun h => absurd (Option.some_inj.mp (by rw [heq] at h; exact h)) hTE⟩
  rcases hhex : hexDecode r.signatureHeader with _ | sig
  · have heq : Verify edVerify v now r = (some errInvalidSigHex, r.body) := by
      simp [Verify, ht, hsg, hp, hskew, hhex]
    exact ⟨fun _ => by rw [heq],
      fun h => absurd (Option.some_inj.mp (by rw [heq] at h; exact h)) hIH⟩
  by_cases hslen : sig.length = signatureSize
  swap
  · have heq : Verify edVerify v now r = (some errInvalidSigLen, r.body) := by
      simp [Verify, ht, hsg, hp, hskew, hhex, hslen]
    exact ⟨fun _ => by rw [heq],
      fun h => absurd (Option.some_inj.mp (by rw [heq] at h; exact h)) hIL⟩
  by_cases hbig : (r.body.length : Int) ≤ v.maxBodyBytes
  · have hbody : r.body.take (v.maxBodyBytes + 1).toNat = r.body :=
      List.take_of_length_le (by omega)
    by_cases hany : ∃ pub ∈ v.publicKeys,
        edVerify pub (utf8Bytes r.timestampHeader ++ r.body) sig = true
    · have heq : Verify edVerify v now r = (none, r.body) := by
        simp [Verify, ht, hsg, hp, hskew, hhex, hslen, hbig, hbody, hany]
      exact ⟨fun _ => by rw [heq],
        fun h => Option.noConfusion (show (none : Option XError) = some errBodyTooLarge by
          rw [heq] at h; exact h)⟩
    · have heq : Verify edVerify v now r = (some errSignatureInvalid, r.body) := by
        simp [Verify, ht, hsg, hp, hskew, hhex, hslen, hbig, hbody, hany]
      exact ⟨fun _ => by rw [heq],
        fun h => absurd (Option.some_inj.mp (by rw [heq] at h; exact h)) hSI⟩
  · have heq : Verify edVerify v now r =
        (some errBodyTooLarge, r.body.drop (v.maxBodyBytes + 1).toNat) := by
      simp [Verify, ht, hsg, hp, hskew, hhex, hslen, hbig]
    refine ⟨fun hne => absurd ?_ hne, fun _ => by rw [heq]⟩
    rw [heq]

/-- Counterexample to C1 as stated: `max_body_bytes = 2`, body
`[1,2,3,4,5]` — `Verify` rejects with `ERR_BODY_TOO_LARGE` and the
downstream reader then observes `[4,5]`, not the original bytes. -/
theorem verify_body_too_large_not_restored :
    (Verify (fun (_ : Unit) _ _ => false) ⟨[()], 300, 2⟩ 100
        ⟨"100", zeroSigHex, [1, 2, 3, 4, 5]⟩) = (some errBodyTooLarge, [4, 5]) ∧
    ([4, 5] : List Nat) ≠ [1, 2, 3, 4, 5] := by
  decide

/-- Witness: on a request whose body is within the limit, the body
seen after `Verify` is the original. -/
theorem verify_body_restoration_witness :
    (Verify (fun (_ : Unit) _ _ => true) ⟨[()], 300, 100⟩ 100
        ⟨"100", zeroSigHex, [9, 8]⟩).2 = [9, 8] :=
  (verify_body_restoration _ _ _ _).1 (by decide)

/-- C2 (amended): `Verify` returns the documented distinct code for
each rejection reason, in the code's check order; the expiry check uses
the int64-computed distance, which coincides with `|now − timestamp|`
whenever that is below `2^63` (64-bit wraparound lets exactly the
distances ≥ `2^63` congruent to a small value — in particular
`now − timestamp = ±2^63` — slip past the check); each configured key
is tried and any validating key suffices; and no input is accepted
unless some configured key validates the signature over
`timestamp ‖ body`. -/
theorem verify_error_codes {K : Type} (edVerify : K → List Nat → List Nat → Bool)
    (v : WebhookVerifier K) (now : Int) (r : WebhookRequest) :
    (r.timestampHeader = "" → (Verify edVerify v now r).1 = some errMissingTimestamp) ∧
    (r.timestampHeader ≠ "" → r.signatureHeader = "" →
       (Verify edVerify v now r).1 = some errMissingSignature) ∧
    (r.timestampHeader ≠ "" → r.signatureHeader ≠ "" →
       parseInt64 r.timestampHeader = none →
       (Verify edVerify v now r).1 = some errInvalidTimestamp) ∧
    (∀ ts, r.timestampHeader ≠ "" → r.signatureHeader ≠ "" →
       parseInt64 r.timestampHeader = some ts → goAbsDiff now ts > v.maxClockSkewSec →
       (Verify edVerify v now r).1 = some errTimestampExpired) ∧
    (∀ ts, |now - ts| < 2 ^ 63 → goAbsDiff now ts = |now - ts|) ∧
    (∀ ts, r.timestampHeader ≠ "" → r.signatureHeader ≠ "" →
       parseInt64 r.timestampHeader = some ts → ¬ goAbsDiff now ts > v.maxClockSkewSec →
       hexDecode r.signatureHeader = none →
       (Verify edVerify v now r).1 = some errInvalidSigHex) ∧
    (∀ ts sig, r.timestampHeader ≠ "" → r.signatureHeader ≠ "" →
       parseInt64 r.timestampHeader = some ts → ¬ goAbsDiff now ts > v.maxClockSkewSec →
       hexDecode r.signatureHeader = some sig → sig.length ≠ signatureSize →
       (Verify edVerify v now r).1 = some errInvalidSigLen) ∧
    (errInvalidSigHex.code = "ERR_INVALID_SIGNATURE" ∧
       errInvalidSigLen.code = "ERR_INVALID_SIGNATURE") ∧
    (∀ ts sig, r.timestampHeader ≠ "" → r.signatureHeader ≠ "" →
       parseInt64 r.timestampHeader = some ts → ¬ goAbsDiff now ts > v.maxClockSkewSec →
       hexDecode r.signatureHeader = some sig → sig.length = signatureSize →
       (r.body.length : Int) > v.maxBodyBytes →
       (Verify edVerify v now r).1 = some errBodyTooLarge) ∧
    (∀ ts sig, r.timestampHeader ≠ "" → r.signatureHeader ≠ "" →
       parseInt64 r.timestampHeader = some ts → ¬ goAbsDiff now ts > v.maxClockSkewSec →
       hexDecode r.signatureHeader = some sig → sig.length = signatureSize →
       (r.body.length : Int) ≤ v.maxBodyBytes →
       ((∃ pub ∈ v.publicKeys,
           edVerify pub (utf8Bytes r.timestampHeader ++ r.body) sig = true) →
          (Verify edVerify v now r).1 = none) ∧
       ((∀ pub ∈ v.publicKeys,
           edVerify pub (utf8Bytes r.timestampHeader ++ r.body) sig = false) →
          (Verify edVerify v now r).1 = some errSignatureInvalid)) ∧
    ((Verify edVerify v now r).1 = none →
       ∃ pub ∈ v.publicKeys, ∃ sig, hexDecode r.signatureHeader = some sig ∧
         edVerify pub (utf8Bytes r.timestampHeader ++
           r.body.take (v.maxBodyBytes + 1).toNat) sig = true) := by
  refine ⟨?_, ?_, ?_, ?_, ?_, ?_, ?_, by decide, ?_, ?_, ?_⟩
  · intro ht
    simp [Verify, ht]
  · intro ht hsg
    simp [Verify, ht, hsg]
  · intro ht hsg hp
    simp [Verify, ht, hsg, hp]
  · intro ts ht hsg hp hskew
    simp [Verify, ht, hsg, hp, hskew]
  · intro ts habs
    rcases abs_cases (now - ts) with ⟨h1, h2⟩ | ⟨h1, h2⟩ <;>
      rw [h1] at habs ⊢ <;>
      simp only [goAbsDiff, int64wrap] <;>
      split <;> omega
  · intro ts ht hsg hp hskew hhex
    simp [Verify, ht, hsg, hp, hskew, hhex]
  · intro ts sig ht hsg hp hskew hhex hslen
    simp [Verify, ht, hsg, hp, hskew, hhex, hslen]
  · intro ts sig ht hsg hp hskew hhex hslen hbig
    have hbig' : v.maxBodyBytes < (r.body.length : Int) := by omega
    simp [Verify, ht, hsg, hp, hskew, hhex, hslen, hbig']
  · intro ts sig ht hsg hp hskew hhex hslen hsmall
    have hbody : r.body.take (v.maxBodyBytes + 1).toNat = r.body :=
      List.take_of_length_le (by omega)
    have hn : ¬ v.maxBodyBytes < (r.body.length : Int) := by omega
    constructor
    · intro hacc
      simp [Verify, ht, hsg, hp, hskew, hhex, hslen, hn, hbody, hacc]
    · intro hall
      have hany : ¬ ∃ pub ∈ v.publicKeys,
          edVerify pub (utf8Bytes r.timestampHeader ++ r.body) sig = true := by
        rintro ⟨pub, hpub, hv⟩
        rw [hall pub hpub] at hv
        exact Bool.noConfusion hv
      simp [Verify, ht, hsg, hp, hskew, hhex, hslen, hn, hbody, hany]
  · intro hres
    by_cases ht : r.timestampHeader = ""
    · simp [Verify, ht] at hres
    by_cases hsg : r.signatureHeader = ""
    · simp [Verify, ht, hsg] at hres
    rcases hp : parseInt64 r.timestampHeader with _ | ts
    · simp [Verify, ht, hsg, hp] at hres
    by_cases hskew : goAbsDiff now ts > v.maxClockSkewSec
    · simp [Verify, ht, hsg, hp, hskew] at hres
    rcases hhex : hexDecode r.signatureHeader with _ | sig
    · simp [Verify, ht, hsg, hp, hskew, hhex] at hres
    by_cases hslen : sig.length = signatureSize
    swap
    · simp [Verify, ht, hsg, hp, hskew, hhex, hslen] at hres
    by_cases hbig : (r.body.length : Int) ≤ v.maxBodyBytes
    swap
    · have h2 : v.maxBodyBytes < (r.body.length : Int) := by omega
      simp [Verify, ht, hsg, hp, hskew, hhex, hslen, h2] at hres
    have hbody : r.body.take (v.maxBodyBytes + 1).toNat = r.body :=
      List.take_of_length_le (by omega)
    have hn : ¬ v.maxBodyBytes < (r.body.length : Int) := by omega
    by_cases hany : ∃ pub ∈ v.publicKeys,
        edVerify pub (utf8Bytes r.timestampHeader ++ r.body) sig = true
    · obtain ⟨pub, hpub, hv⟩ := hany
      exact ⟨pub, hpub, sig, rfl, by rw [hbody]; exact hv⟩
    · simp [Verify, ht, hsg, hp, hskew, hhex, hslen, hn, hbody, hany] at hres

/-- Counterexample to C2 as stated: at `now = 1700000000` the parseable
timestamp `now − 2^63` lies astronomically outside the 300-second skew,
yet `Verify` does not return `ERR_TIMESTAMP_EXPIRED` — the int64
subtraction wraps, `-diff` overflows back to `math.MinInt64`, and the
expiry check is skipped; the request proceeds to (and fails) signature
verification. -/
theorem verify_expiry_wraparound_escape :
    parseInt64 "-9223372035154775808" = some (1700000000 - 2 ^ 63) ∧
    ((1700000000 : Int) - (1700000000 - 2 ^ 63)).natAbs > 300 ∧
    (Verify (fun (_ : Unit) _ _ => false) ⟨[()], 300, 5242880⟩ 1700000000
        ⟨"-9223372035154775808", zeroSigHex, []⟩).1 = some errSignatureInvalid ∧
    errSignatureInvalid ≠ errTimestampExpired := by
  decide

/-- Witness for the error-code characterization: a missing timestamp,
a malformed timestamp, and a fully valid signed request with a key
that validates. -/
theorem verify_error_codes_witness :
    (Verify (fun (_ : Unit) _ _ => false) ⟨[()], 300, 100⟩ 0 ⟨"", "ff", []⟩).1 =
      some errMissingTimestamp ∧
    (Verify (fun (_ : Unit) _ _ => false) ⟨[()], 300, 100⟩ 0 ⟨"abc", "ff", []⟩).1 =
      some errInvalidTimestamp ∧
    (Verify (fun (_ : Unit) _ _ => true) ⟨[()], 300, 100⟩ 0 ⟨"0", zeroSigHex, [1]⟩).1 =
      none :=
  ⟨(verify_error_codes _ _ _ _).1 rfl,
   (verify_error_codes _ _ _ _).2.2.1 (by decide) (by decide) (by decide),
   ((verify_error_codes _ _ _ _).2.2.2.2.2.2.2.2.2.1 0 (List.replicate 64 0)
       (by decide) (by decide) (by decide) (by decide) (by decide) (by decide)
       (by decide)).1 ⟨(), by decide, rfl⟩⟩

end Xbow
